import Mathlib

/-!
Verification of the Garmin_tracker aggregation pipeline.

This file gives a shallow embedding of the data-shaping pipeline of
`src/garmin_tracker/webapp.py` (zone classification, metric-index
resolution, series extraction, per-sample zone attribution, the
dashboard zone aggregation loop, and the reporting-period windows) and
of the rolling-band chart-series builder of
`src/garmin_tracker/activity_manager.py`, and proves properties of the
embedded code.

Modelling conventions:
  * Python floats are modelled by `ℚ` (the pipeline only adds,
    subtracts, multiplies and divides); the one genuinely irrational
    step, `sqrt` in the confidence-interval computation, is modelled
    over `ℝ`.
  * JSON cells are `JCell`: `null`, a numeric value, or `bad` (a value
    on which Python `float(v)` raises).
  * `None`-able values are `Option`; code that can raise an uncaught
    exception returns `Except Unit`.
  * Python `x or y` on optional ints (used for metric-index
    resolution) is `or_falsy`: it yields `y` when `x` is `None` OR the
    integer `0`, since `0` is falsy in Python.
  * Python `%` and `//` on ints with a positive right operand are
    `Int.emod` and `Int.ediv` (floor semantics).
-/

namespace GT

/-- A cell of a JSON `metrics` row: `null`, a number, or a value on
which Python `float(v)` raises. -/
inductive JCell
  | null
  | num (q : ℚ)
  | bad
deriving DecidableEq

/-- A sample row that is a JSON dict; `metrics` is `none` when the
`"metrics"` entry is absent or not a list. -/
structure MRow where
  metrics : Option (List JCell)
deriving DecidableEq

/-- A raw element of `activityDetailMetrics`: either not a dict (the
code filters these out) or a dict row. -/
inductive RawRow
  | nondict
  | dict (r : MRow)
deriving DecidableEq

/-- A raw element of `metricDescriptors`: either not a dict, or a dict
with an optional `key` (absent/falsy modelled by `none` or `""`) and an
optional integer `metricsIndex` (`none` = absent or not an int). -/
inductive RawDesc
  | nondict
  | dict (key : Option String) (mi : Option Int)
deriving DecidableEq

/-- The per-activity detail bundle `details_dict`; a field is `none`
when the corresponding entry is absent or not a list. -/
structure Details where
  metricDescriptors : Option (List RawDesc)
  activityDetailMetrics : Option (List RawRow)
deriving DecidableEq

/-- The heart-rate zone table `{z1_max .. z5_max}`. -/
structure Zones where
  z1_max : ℚ
  z2_max : ℚ
  z3_max : ℚ
  z4_max : ℚ
  z5_max : ℚ
deriving DecidableEq

/-- An activity summary as consumed by the dashboard loop
(`webapp.py:912-995`).  `startTime` is the parsed start timestamp on a
seconds timeline (`none` when missing/unparseable), numeric fields are
`none` when absent or non-numeric, `details` is `none` when no details
dict is stored for the activity. -/
structure Act where
  startTime : Option ℚ
  distance : Option ℚ
  duration : Option ℚ
  averageHR : Option ℚ
  details : Option Details
deriving DecidableEq

/-- `_zone_for_hr` (webapp.py:581-596): `none` input (null or
unconvertible heart rate) yields `none`; otherwise first zone whose
upper bound the value is `≤`. -/
def zone_for_hr (hr : Option ℚ) (zones : Zones) : Option ℕ :=
  match hr with
  | none => none
  | some v =>
    if v ≤ zones.z1_max then some 1
    else if v ≤ zones.z2_max then some 2
    else if v ≤ zones.z3_max then some 3
    else if v ≤ zones.z4_max then some 4
    else some 5

/-- The `idx_map` construction (webapp.py:606-613 and 2028-2042): keep
descriptor dicts whose key is truthy and whose `metricsIndex` is an
int; later entries overwrite earlier ones (dict assignment). -/
def build_idx_map (md : List RawDesc) : List (String × Int) :=
  md.foldl (fun acc d =>
    match d with
    | .dict (some k) (some mi) => if k ≠ "" then acc ++ [(k, mi)] else acc
    | _ => acc) []

/-- `idx_map.get(k)`: last-written binding wins. -/
def idx_get (m : List (String × Int)) (k : String) : Option Int :=
  m.foldl (fun acc p => if p.1 = k then some p.2 else acc) none

/-- Python `a or b` on `int | None` values: `b` is taken when `a` is
`None` or the falsy int `0`. -/
def or_falsy (a b : Option Int) : Option Int :=
  match a with
  | some v => if v = 0 then b else some v
  | none => b

/-- The heart-rate index resolution used at webapp.py:615 and
webapp.py:2132: `idx_map.get("directHeartRate") or
idx_map.get("heartRate")`. -/
def resolve_hr_idx (m : List (String × Int)) : Option Int :=
  or_falsy (idx_get m "directHeartRate") (idx_get m "heartRate")

/-- `_get_metric` (webapp.py:622-634): `None` index, missing/non-list
`metrics`, index `≥ len`, null cell, or any exception (bad cell,
negative index out of range — Python indexing with a negative `idx`
reads from the end) yield `none`. -/
def get_metric (r : MRow) (idx : Option Int) : Option ℚ :=
  match idx with
  | none => none
  | some i =>
    match r.metrics with
    | none => none
    | some m =>
      if (m.length : Int) ≤ i then none
      else
        match (if 0 ≤ i then m.get? i.toNat
               else if 0 ≤ (m.length : Int) + i then m.get? ((m.length : Int) + i).toNat
               else none) with
        | none => none
        | some .null => none
        | some (.num q) => some q
        | some .bad => none

/-- The four resolved column indices of
`_compute_zone_load_from_metrics`. -/
structure Idxs where
  hr : Option Int
  t : Option Int
  ts : Option Int
  dist : Option Int
deriving DecidableEq

/-- The time delta of a consecutive-sample pair (webapp.py:654-659):
elapsed-duration difference when both ends are present, else
timestamp difference in ms divided by 1000, else `none`. -/
def dt_of (ix : Idxs) (prevT prevTs : Option ℚ) (r : MRow) : Option ℚ :=
  match get_metric r ix.t, prevT with
  | some a, some b => some (a - b)
  | _, _ =>
    match get_metric r ix.ts, prevTs with
    | some a, some b => some ((a - b) / 1000)
    | _, _ => none

/-- The distance delta of a consecutive-sample pair
(webapp.py:661-663). -/
def dd_of (ix : Idxs) (prevD : Option ℚ) (r : MRow) : Option ℚ :=
  match get_metric r ix.dist, prevD with
  | some a, some b => some (a - b)
  | _, _ => none

/-- The state threaded through the sample loop of
`_compute_zone_load_from_metrics`. -/
structure LoopSt where
  prevT : Option ℚ
  prevTs : Option ℚ
  prevD : Option ℚ
  sec : List ℚ
  met : List ℚ
deriving DecidableEq

/-- One iteration of the sample loop (webapp.py:647-678): pairs with
`dt` outside `(0, 30]` (or unknown) are skipped; a distance delta
outside `[0, 200]` is dropped (`dd = None`) while the seconds still
count; seconds/meters are attributed to the zone of the sample's heart
rate when it classifies. -/
def zstep (zones : Zones) (ix : Idxs) (st : LoopSt) (r : MRow) : LoopSt :=
  let curT := get_metric r ix.t
  let curTs := get_metric r ix.ts
  let curD := get_metric r ix.dist
  match dt_of ix st.prevT st.prevTs r with
  | none => { st with prevT := curT, prevTs := curTs, prevD := curD }
  | some dts =>
    if 0 < dts ∧ dts ≤ 30 then
      let dd : Option ℚ :=
        match dd_of ix st.prevD r with
        | some v => if 0 ≤ v ∧ v ≤ 200 then some v else none
        | none => none
      match zone_for_hr (get_metric r ix.hr) zones with
      | none => { st with prevT := curT, prevTs := curTs, prevD := curD }
      | some z =>
        { prevT := curT, prevTs := curTs, prevD := curD,
          sec := st.sec.set z (st.sec.getD z 0 + dts),
          met := match dd with
            | some v => st.met.set z (st.met.getD z 0 + v)
            | none => st.met }
    else { st with prevT := curT, prevTs := curTs, prevD := curD }

/-- `[0.0] * 6`. -/
def zeros6 : List ℚ := [0, 0, 0, 0, 0, 0]

/-- `_compute_zone_load_from_metrics` (webapp.py:598-680): returns
`(seconds_by_zone[0..5], meters_by_zone[0..5])` (index 0 unused). -/
def compute_zone_load_from_metrics (details : Details) (zones : Zones) :
    List ℚ × List ℚ :=
  match details.metricDescriptors, details.activityDetailMetrics with
  | some md, some rows_raw =>
    let m := build_idx_map md
    let hr_idx := resolve_hr_idx m
    let t_idx := idx_get m "sumElapsedDuration"
    let ts_idx := idx_get m "directTimestamp"
    let dist_idx := or_falsy (idx_get m "sumDistance") (idx_get m "directDistance")
    if hr_idx = none ∨ (t_idx = none ∧ ts_idx = none) then (zeros6, zeros6)
    else
      match rows_raw.filterMap (fun r =>
          match r with
          | .dict mr => some mr
          | .nondict => none) with
      | [] => (zeros6, zeros6)
      | [_] => (zeros6, zeros6)
      | r0 :: rest =>
        let ix : Idxs := ⟨hr_idx, t_idx, ts_idx, dist_idx⟩
        let st0 : LoopSt :=
          ⟨get_metric r0 t_idx, get_metric r0 ts_idx, get_metric r0 dist_idx,
            zeros6, zeros6⟩
        ((rest.foldl (zstep zones ix) st0).sec, (rest.foldl (zstep zones ix) st0).met)
  | _, _ => (zeros6, zeros6)

/-- `float(a.get("distance") or 0.0)` (webapp.py:915): absent,
null, falsy or unconvertible becomes `0`. -/
def dist_val (a : Act) : ℚ := a.distance.getD 0

/-- `float(a.get("duration") or 0.0)` (webapp.py:919). -/
def dur_val (a : Act) : ℚ := a.duration.getD 0

/-- Per-sample zone load of one activity: detail metrics when a
details dict is stored, all-zero vectors otherwise
(webapp.py:974-977). -/
def per_sample (a : Act) (zones : Zones) : List ℚ × List ℚ :=
  match a.details with
  | some d => compute_zone_load_from_metrics d zones
  | none => (zeros6, zeros6)

/-- `for z in range(1, 6): acc[z] += v[z]` (webapp.py:980-982). -/
def add_zones (acc v : List ℚ) : List ℚ :=
  [1, 2, 3, 4, 5].foldl (fun ac z => ac.set z (ac.getD z 0 + v.getD z 0)) acc

/-- Time-share apportionment of the summary distance
(webapp.py:985-988): each zone receives `d * (sz[z] / sum(sz))`. -/
def apportion (met : List ℚ) (d : ℚ) (sz : List ℚ) : List ℚ :=
  [1, 2, 3, 4, 5].foldl (fun ac z => ac.set z (ac.getD z 0 + d * (sz.getD z 0 / sz.sum))) met

/-- One iteration of the dashboard zone-aggregation loop
(webapp.py:961-995) for one in-window activity, acting on the
accumulated `(sec_by_zone, m_by_zone)` pair.  A zone table is assumed
present (the code's `if not zones: continue` guard at webapp.py:967
only fires when no table exists at all, in which case no zone
aggregation happens). -/
def dash_step (zones : Zones) (acc : List ℚ × List ℚ) (a : Act) : List ℚ × List ℚ :=
  let sz := (per_sample a zones).1
  let mz := (per_sample a zones).2
  if sz.sum > 0 then
    let sec := add_zones acc.1 sz
    let met := add_zones acc.2 mz
    (sec,
      if mz.sum ≤ 0 ∧ dist_val a > 0 ∧ sz.sum > 0 then apportion met (dist_val a) sz
      else met)
  else
    let fb := (zone_for_hr a.averageHR zones).getD 1
    (acc.1.set fb (acc.1.getD fb 0 + dur_val a),
      if dist_val a > 0 then acc.2.set fb (acc.2.getD fb 0 + dist_val a) else acc.2)

/-- The dashboard zone aggregation over the in-window activity list
(webapp.py:909-995). -/
def dash_zone_agg (zones : Zones) (acts : List Act) : List ℚ × List ℚ :=
  acts.foldl (dash_step zones) (zeros6, zeros6)

/-- `_safe_float` (webapp.py:2009-2015). -/
def safe_float (c : JCell) : Option ℚ :=
  match c with
  | .null => none
  | .num q => some q
  | .bad => none

/-- `r.get("metrics") if isinstance(r, dict) else None`
(webapp.py:2049). -/
def row_metrics (r : RawRow) : Option (List JCell) :=
  match r with
  | .dict mr => mr.metrics
  | .nondict => none

/-- The row walk of `_collect_series` for a non-`None` index
(webapp.py:2048-2053).  Unlike `_get_metric` there is no `try` around
the indexing, so `metrics[idx]` with a negative `idx` below `-len`
raises `IndexError`: modelled by `Except.error ()`. -/
def collect_go (i : Int) : List RawRow → Except Unit (List (Option ℚ))
  | [] => .ok []
  | r :: rest =>
    match row_metrics r with
    | none => (collect_go i rest).map (fun out => none :: out)
    | some m =>
      if (m.length : Int) ≤ i then (collect_go i rest).map (fun out => none :: out)
      else
        match (if 0 ≤ i then m.get? i.toNat
               else if 0 ≤ (m.length : Int) + i then m.get? ((m.length : Int) + i).toNat
               else none) with
        | some c => (collect_go i rest).map (fun out => safe_float c :: out)
        | none => .error ()

/-- `_collect_series` (webapp.py:2044-2054): a `None` index yields
`[]`. -/
def collect_series (rows : List RawRow) (idx : Option Int) :
    Except Unit (List (Option ℚ)) :=
  match idx with
  | none => .ok []
  | some i => collect_go i rows

/-- The non-null values of the trailing window of width `w` ending at
position `i` (pandas `rolling(window=w, min_periods=1)` over the first
`i+1` entries). -/
def win_vals (w : ℕ) (xs : List (Option ℚ)) (i : ℕ) : List ℚ :=
  ((xs.take (i + 1)).drop (i + 1 - w)).filterMap id

/-- `series.rolling(window=w, min_periods=1).mean()`
(activity_manager.py:211, 549): `none` where the window holds no
sample. -/
def rolling_mean (w : ℕ) (xs : List (Option ℚ)) : List (Option ℚ) :=
  (List.range xs.length).map fun i =>
    let vs := win_vals w xs i
    if vs.length = 0 then none else some (vs.sum / (vs.length : ℚ))

/-- The square of `series.rolling(window=w, min_periods=1).std()`:
the sample variance (pandas default `ddof = 1`), undefined (`none`,
i.e. NaN) when the window holds fewer than two samples
(activity_manager.py:212, 550). -/
def rolling_var (w : ℕ) (xs : List (Option ℚ)) : List (Option ℚ) :=
  (List.range xs.length).map fun i =>
    let vs := win_vals w xs i
    if vs.length < 2 then none
    else some ((vs.map (fun x => (x - vs.sum / (vs.length : ℚ)) ^ 2)).sum / ((vs.length : ℚ) - 1))

/-- The rolling standard deviation itself; `Real.sqrt` forces `ℝ`. -/
noncomputable def rolling_std (w : ℕ) (xs : List (Option ℚ)) : List (Option ℝ) :=
  (rolling_var w xs).map (Option.map fun v : ℚ => Real.sqrt (v : ℝ))

/-- `CI = 1.96 * std / sqrt(w)` (activity_manager.py:213, 551),
positionwise, NaN-propagating. -/
noncomputable def rolling_ci (w : ℕ) (xs : List (Option ℚ)) : List (Option ℝ) :=
  (rolling_std w xs).map (Option.map fun s => 1.96 * s / Real.sqrt (w : ℝ))

/-- The leap-year test inlined in `_add_months` (webapp.py:551), which
is the proleptic Gregorian rule also used by `datetime.date`. -/
def is_leap (y : Int) : Bool :=
  y % 4 = 0 && (y % 100 ≠ 0 || y % 400 = 0)

/-- The month-length list of `_add_months` (webapp.py:551). -/
def mdays (y : Int) : List Int :=
  [31, if is_leap y then 29 else 28, 31, 30, 31, 30, 31, 31, 30, 31, 30, 31]

/-- Days in month `m` (1-based) of year `y`. -/
def days_in_month (y m : Int) : Int := (mdays y).getD (m - 1).toNat 31

/-- A calendar date (`datetime.date`). -/
structure Date where
  year : Int
  month : Int
  day : Int
deriving DecidableEq

/-- A well-formed Gregorian date. -/
def ValidDate (d : Date) : Prop :=
  1 ≤ d.month ∧ d.month ≤ 12 ∧ 1 ≤ d.day ∧ d.day ≤ days_in_month d.year d.month

instance (d : Date) : Decidable (ValidDate d) :=
  inferInstanceAs (Decidable (1 ≤ d.month ∧ d.month ≤ 12 ∧ 1 ≤ d.day ∧
    d.day ≤ days_in_month d.year d.month))

/-- The calendar successor day (`date + timedelta(days=1)`). -/
def next_day (d : Date) : Date :=
  if d.day < days_in_month d.year d.month then ⟨d.year, d.month, d.day + 1⟩
  else if d.month < 12 then ⟨d.year, d.month + 1, 1⟩
  else ⟨d.year + 1, 1, 1⟩

/-- The calendar predecessor day (`date - timedelta(days=1)`). -/
def prev_day (d : Date) : Date :=
  if 1 < d.day then ⟨d.year, d.month, d.day - 1⟩
  else if 1 < d.month then ⟨d.year, d.month - 1, days_in_month d.year (d.month - 1)⟩
  else ⟨d.year - 1, 12, 31⟩

/-- `date + timedelta(days=n)`. -/
def add_days (d : Date) (n : ℕ) : Date := next_day^[n] d

/-- `date - timedelta(days=n)`. -/
def sub_days (d : Date) (n : ℕ) : Date := prev_day^[n] d

/-- Days in years `1 .. y-1` (proleptic Gregorian). -/
def days_before_year (y : Int) : Int :=
  365 * (y - 1) + (y - 1) / 4 - (y - 1) / 100 + (y - 1) / 400

/-- Days in months `1 .. m-1` of year `y`. -/
def days_before_month (y m : Int) : Int := ((mdays y).take (m - 1).toNat).sum

/-- `date.toordinal()`: day number with `0001-01-01 = 1`. -/
def to_ordinal (d : Date) : Int :=
  days_before_year d.year + days_before_month d.year d.month + d.day

/-- `date.weekday()`: Monday = 0 .. Sunday = 6. -/
def weekday (d : Date) : Int := (to_ordinal d + 6) % 7

/-- Linear month index, for stating month arithmetic. -/
def month_index (d : Date) : Int := 12 * d.year + (d.month - 1)

/-- `_add_months` (webapp.py:547-552): month arithmetic with day
clamped to the target month's length. -/
def add_months (d : Date) (months : Int) : Date :=
  let y := d.year + (d.month - 1 + months) / 12
  let m := (d.month - 1 + months) % 12 + 1
  ⟨y, m, min d.day (days_in_month y m)⟩

/-- The three reporting periods of `_period_bounds`. -/
inductive Period
  | week
  | month
  | year
deriving DecidableEq

/-- `_period_bounds` (webapp.py:554-579), restricted to the
`(start_date, end_date)` pair (the label and the midnight datetimes
are presentation). -/
def period_bounds (p : Period) (anchor : Date) : Date × Date :=
  match p with
  | .week => (sub_days anchor 6, add_days anchor 1)
  | .month =>
    (sub_days (sub_days anchor (weekday anchor).toNat) 21,
      add_days (sub_days anchor (weekday anchor).toNat) 7)
  | .year =>
    (add_months ⟨anchor.year, anchor.month, 1⟩ (-11),
      add_months ⟨anchor.year, anchor.month, 1⟩ 1)

/-- `datetime.combine(d, time.min)` on the seconds timeline used for
activity start timestamps. -/
def midnight (d : Date) : ℚ := ((86400 * to_ordinal d : Int) : ℚ)

/-- The in-window activity filter (webapp.py:868-877): keep activities
with a parseable start timestamp `t` satisfying
`start_dt <= t < end_dt`. -/
def acts_in_range (acts : List Act) (s e : Date) : List Act :=
  acts.filter fun a =>
    match a.startTime with
    | none => false
    | some t => decide (midnight s ≤ t ∧ t < midnight e)

/-- The code's attribution of one activity's duration in the dashboard
zone loop: the per-sample total when it is positive, the summary
duration otherwise (webapp.py:979-995). -/
def attributed_duration (zones : Zones) (a : Act) : ℚ :=
  if (per_sample a zones).1.sum > 0 then (per_sample a zones).1.sum else dur_val a

/-- The invariant of the six-slot zone vectors: length 6, unused slot 0
is zero, all entries nonnegative. -/
def GoodVec (l : List ℚ) : Prop :=
  l.length = 6 ∧ l.getD 0 0 = 0 ∧ ∀ x ∈ l, 0 ≤ x

/-- Modelled from the spec (claim C3's words): attributed duration is
"its full per-sample duration when it has detail metrics and its full
summary duration when it has none". -/
def spec_attributed_duration (zones : Zones) (a : Act) : ℚ :=
  match a.details with
  | some _ => (per_sample a zones).1.sum
  | none => dur_val a

/-! ### Generic list helpers -/

lemma list_get?_of_lt {α : Type} : ∀ (l : List α) (n : ℕ), n < l.length →
    ∀ d : α, l.get? n = some (l.getD n d)
  | _ :: _, 0, _, _ => rfl
  | _ :: l, n + 1, h, d => list_get?_of_lt l n (Nat.lt_of_succ_lt_succ h) d

lemma list_getD_mem {α : Type} : ∀ (l : List α) (n : ℕ), n < l.length →
    ∀ d : α, l.getD n d ∈ l
  | _ :: _, 0, _, _ => List.mem_cons_self _ _
  | _ :: l, n + 1, h, d =>
    List.mem_cons_of_mem _ (list_getD_mem l n (Nat.lt_of_succ_lt_succ h) d)

lemma list_sum_set_add : ∀ (l : List ℚ) (n : ℕ), n < l.length →
    ∀ v : ℚ, (l.set n (l.getD n 0 + v)).sum = l.sum + v := by
  intro l
  induction l with
  | nil => intro n h; simp at h
  | cons x l ih =>
    intro n h v
    cases n with
    | zero => simp [List.set, List.getD_cons_zero]; ring
    | succ n =>
      simp only [List.set, List.getD_cons_succ, List.sum_cons]
      rw [ih n (Nat.lt_of_succ_lt_succ h) v]
      ring

lemma list_set_getD_self : ∀ (l : List ℚ) (n : ℕ), n < l.length →
    l.set n (l.getD n 0) = l := by
  intro l
  induction l with
  | nil => intro n h; simp at h
  | cons x l ih =>
    intro n h
    cases n with
    | zero => simp [List.set, List.getD_cons_zero]
    | succ n =>
      simp only [List.set, List.getD_cons_succ]
      rw [ih n (Nat.lt_of_succ_lt_succ h)]

lemma exists_six (v : List ℚ) (h : v.length = 6) :
    ∃ q0 q1 q2 q3 q4 q5 : ℚ, v = [q0, q1, q2, q3, q4, q5] := by
  rcases v with _ | ⟨q0, v⟩
  · simp at h
  rcases v with _ | ⟨q1, v⟩
  · simp at h
  rcases v with _ | ⟨q2, v⟩
  · simp at h
  rcases v with _ | ⟨q3, v⟩
  · simp at h
  rcases v with _ | ⟨q4, v⟩
  · simp at h
  rcases v with _ | ⟨q5, v⟩
  · simp at h
  rcases v with _ | ⟨q6, v⟩
  · exact ⟨q0, q1, q2, q3, q4, q5, rfl⟩
  · simp at h

/-! ### Invariants of the zone vectors -/

lemma goodvec_zeros : GoodVec zeros6 := by
  refine ⟨rfl, rfl, ?_⟩
  decide

lemma zone_for_hr_cases (hr : Option ℚ) (zs : Zones) (z : ℕ)
    (h : zone_for_hr hr zs = some z) :
    z = 1 ∨ z = 2 ∨ z = 3 ∨ z = 4 ∨ z = 5 := by
  cases hr with
  | none => simp [zone_for_hr] at h
  | some v =>
    simp only [zone_for_hr] at h
    split_ifs at h <;> (injection h with h2; omega)

lemma zone_getD_cases (hr : Option ℚ) (zs : Zones) :
    (zone_for_hr hr zs).getD 1 = 1 ∨ (zone_for_hr hr zs).getD 1 = 2 ∨
    (zone_for_hr hr zs).getD 1 = 3 ∨ (zone_for_hr hr zs).getD 1 = 4 ∨
    (zone_for_hr hr zs).getD 1 = 5 := by
  cases hz : zone_for_hr hr zs with
  | none => simp
  | some z =>
    have := zone_for_hr_cases hr zs z hz
    simpa using this

lemma goodvec_bump (l : List ℚ) (z : ℕ) (v : ℚ) (hl : GoodVec l)
    (hz1 : 1 ≤ z) (hz5 : z ≤ 5) (hv : 0 ≤ v) :
    GoodVec (l.set z (l.getD z 0 + v)) := by
  obtain ⟨hlen, h0, hpos⟩ := hl
  refine ⟨by simp [hlen], ?_, ?_⟩
  · rw [List.getD_eq_getD_get?, List.get?_set_ne _ _ (by omega), ← List.getD_eq_getD_get?]
    exact h0
  · intro x hx
    rcases List.mem_or_eq_of_mem_set hx with hx | rfl
    · exact hpos x hx
    · have : l.getD z 0 ∈ l := list_getD_mem l z (by omega) 0
      have := hpos _ this
      linarith

lemma zstep_good (zones : Zones) (ix : Idxs) (st : LoopSt) (r : MRow)
    (hs : GoodVec st.sec) (hm : GoodVec st.met) :
    GoodVec (zstep zones ix st r).sec ∧ GoodVec (zstep zones ix st r).met := by
  unfold zstep
  cases hdt : dt_of ix st.prevT st.prevTs r with
  | none => exact ⟨hs, hm⟩
  | some v =>
    dsimp only
    by_cases hc : 0 < v ∧ v ≤ 30
    · rw [if_pos hc]
      cases hz : zone_for_hr (get_metric r ix.hr) zones with
      | none => exact ⟨hs, hm⟩
      | some z =>
        have hzr := zone_for_hr_cases _ zones z hz
        dsimp only
        refine ⟨goodvec_bump _ z v hs (by omega) (by omega) (le_of_lt hc.1), ?_⟩
        cases hdd : dd_of ix st.prevD r with
        | none => exact hm
        | some u =>
          dsimp only
          by_cases hu : 0 ≤ u ∧ u ≤ 200
          · rw [if_pos hu]
            exact goodvec_bump _ z u hm (by omega) (by omega) hu.1
          · rw [if_neg hu]
            exact hm
    · rw [if_neg hc]
      exact ⟨hs, hm⟩

lemma foldl_zstep_good (zones : Zones) (ix : Idxs) :
    ∀ (rows : List MRow) (st : LoopSt), GoodVec st.sec → GoodVec st.met →
      GoodVec (rows.foldl (zstep zones ix) st).sec ∧
      GoodVec (rows.foldl (zstep zones ix) st).met := by
  intro rows
  induction rows with
  | nil => intro st hs hm; exact ⟨hs, hm⟩
  | cons r rest ih =>
    intro st hs hm
    have h := zstep_good zones ix st r hs hm
    exact ih _ h.1 h.2

lemma compute_zone_load_good (d : Details) (zones : Zones) :
    GoodVec (compute_zone_load_from_metrics d zones).1 ∧
    GoodVec (compute_zone_load_from_metrics d zones).2 := by
  unfold compute_zone_load_from_metrics
  cases d.metricDescriptors with
  | none => exact ⟨goodvec_zeros, goodvec_zeros⟩
  | some md =>
    cases d.activityDetailMetrics with
    | none => exact ⟨goodvec_zeros, goodvec_zeros⟩
    | some rows_raw =>
      simp only
      split
      · exact ⟨goodvec_zeros, goodvec_zeros⟩
      · split
        · exact ⟨goodvec_zeros, goodvec_zeros⟩
        · exact ⟨goodvec_zeros, goodvec_zeros⟩
        · exact foldl_zstep_good _ _ _ _ goodvec_zeros goodvec_zeros

lemma per_sample_good (a : Act) (zones : Zones) :
    GoodVec (per_sample a zones).1 ∧ GoodVec (per_sample a zones).2 := by
  unfold per_sample
  cases a.details with
  | none => exact ⟨goodvec_zeros, goodvec_zeros⟩
  | some d => exact compute_zone_load_good d zones

lemma add_zones_sum (acc v : List ℚ) (h : acc.length = 6) :
    (add_zones acc v).length = 6 ∧
    (add_zones acc v).sum =
      acc.sum + (v.getD 1 0 + v.getD 2 0 + v.getD 3 0 + v.getD 4 0 + v.getD 5 0) := by
  obtain ⟨q0, q1, q2, q3, q4, q5, rfl⟩ := exists_six acc h
  refine ⟨rfl, ?_⟩
  show ([q0, q1 + v.getD 1 0, q2 + v.getD 2 0, q3 + v.getD 3 0,
      q4 + v.getD 4 0, q5 + v.getD 5 0] : List ℚ).sum = _
  simp [List.sum_cons]
  ring

lemma goodvec_slots_sum (v : List ℚ) (hv : GoodVec v) :
    v.getD 1 0 + v.getD 2 0 + v.getD 3 0 + v.getD 4 0 + v.getD 5 0 = v.sum := by
  obtain ⟨q0, q1, q2, q3, q4, q5, rfl⟩ := exists_six v hv.1
  have h0 : q0 = 0 := by simpa using hv.2.1
  simp [List.sum_cons, h0]
  ring

lemma goodvec_zero_slots (v : List ℚ) (hv : GoodVec v) (h : v.sum ≤ 0) :
    ∀ n : ℕ, v.getD n 0 = 0 := by
  obtain ⟨q0, q1, q2, q3, q4, q5, rfl⟩ := exists_six v hv.1
  have h0 : q0 = 0 := by simpa using hv.2.1
  have m1 : (0:ℚ) ≤ q1 := hv.2.2 q1 (by simp)
  have m2 : (0:ℚ) ≤ q2 := hv.2.2 q2 (by simp)
  have m3 : (0:ℚ) ≤ q3 := hv.2.2 q3 (by simp)
  have m4 : (0:ℚ) ≤ q4 := hv.2.2 q4 (by simp)
  have m5 : (0:ℚ) ≤ q5 := hv.2.2 q5 (by simp)
  have hsum : q0 + (q1 + (q2 + (q3 + (q4 + (q5 + 0))))) ≤ 0 := by
    simpa [List.sum_cons] using h
  have e1 : q1 = 0 := by linarith
  have e2 : q2 = 0 := by linarith
  have e3 : q3 = 0 := by linarith
  have e4 : q4 = 0 := by linarith
  have e5 : q5 = 0 := by linarith
  subst h0 e1 e2 e3 e4 e5
  intro n
  rcases n with _ | _ | _ | _ | _ | _ | n <;> simp [List.getD]

lemma add_zones_of_zero_slots (acc v : List ℚ) (hacc : acc.length = 6)
    (hv : ∀ n : ℕ, v.getD n 0 = 0) : add_zones acc v = acc := by
  obtain ⟨q0, q1, q2, q3, q4, q5, rfl⟩ := exists_six acc hacc
  show ([q0, q1 + v.getD 1 0, q2 + v.getD 2 0, q3 + v.getD 3 0,
      q4 + v.getD 4 0, q5 + v.getD 5 0] : List ℚ) = _
  rw [hv 1, hv 2, hv 3, hv 4, hv 5]
  simp

lemma apportion_getD (met : List ℚ) (d : ℚ) (sz : List ℚ) (hmet : met.length = 6)
    (z : ℕ) (hz1 : 1 ≤ z) (hz5 : z ≤ 5) :
    (apportion met d sz).getD z 0 = met.getD z 0 + d * (sz.getD z 0 / sz.sum) := by
  obtain ⟨q0, q1, q2, q3, q4, q5, rfl⟩ := exists_six met hmet
  show ([q0, q1 + d * (sz.getD 1 0 / sz.sum), q2 + d * (sz.getD 2 0 / sz.sum),
      q3 + d * (sz.getD 3 0 / sz.sum), q4 + d * (sz.getD 4 0 / sz.sum),
      q5 + d * (sz.getD 5 0 / sz.sum)] : List ℚ).getD z 0 = _
  interval_cases z <;> rfl

lemma dash_step_sum (zones : Zones) (acc : List ℚ × List ℚ) (a : Act)
    (h : acc.1.length = 6) :
    (dash_step zones acc a).1.length = 6 ∧
    (dash_step zones acc a).1.sum = acc.1.sum + attributed_duration zones a := by
  unfold dash_step attributed_duration
  by_cases hs : (per_sample a zones).1.sum > 0
  · rw [if_pos hs, if_pos hs]
    dsimp only
    have hadd := add_zones_sum acc.1 (per_sample a zones).1 h
    refine ⟨hadd.1, ?_⟩
    rw [hadd.2, goodvec_slots_sum _ (per_sample_good a zones).1]
  · rw [if_neg hs, if_neg hs]
    dsimp only
    have hz := zone_getD_cases a.averageHR zones
    have hlt : (zone_for_hr a.averageHR zones).getD 1 < acc.1.length := by
      rw [h]; rcases hz with h5 | h5 | h5 | h5 | h5 <;> omega
    refine ⟨by simp [h], ?_⟩
    exact list_sum_set_add acc.1 _ hlt (dur_val a)

lemma foldl_dash_step_sum (zones : Zones) :
    ∀ (acts : List Act) (acc : List ℚ × List ℚ), acc.1.length = 6 →
      (acts.foldl (dash_step zones) acc).1.length = 6 ∧
      (acts.foldl (dash_step zones) acc).1.sum =
        acc.1.sum + (acts.map (attributed_duration zones)).sum := by
  intro acts
  induction acts with
  | nil => intro acc h; exact ⟨h, by simp⟩
  | cons a rest ih =>
    intro acc h
    have hstep := dash_step_sum zones acc a h
    have hrest := ih (dash_step zones acc a) hstep.1
    refine ⟨hrest.1, ?_⟩
    rw [List.foldl_cons, hrest.2, hstep.2, List.map_cons, List.sum_cons]
    ring

/-! ### Calendar lemmas -/

lemma days_in_month_bounds (y m : Int) (h1 : 1 ≤ m) (h2 : m ≤ 12) :
    1 ≤ days_in_month y m ∧ days_in_month y m ≤ 31 := by
  cases hl : is_leap y <;>
    (interval_cases m <;> simp [days_in_month, mdays, hl])

lemma days_before_month_succ (y m : Int) (h1 : 1 ≤ m) (h2 : m ≤ 12) :
    days_before_month y (m + 1) = days_before_month y m + days_in_month y m := by
  cases hl : is_leap y <;>
    (interval_cases m <;> simp [days_before_month, days_in_month, mdays, hl])

lemma days_before_month_one (y : Int) : days_before_month y 1 = 0 := rfl

lemma days_before_month_twelve (y : Int) :
    days_before_month y 12 = 334 + (if is_leap y then 1 else 0) := by
  cases hl : is_leap y <;> simp [days_before_month, mdays, hl]

lemma days_in_month_twelve (y : Int) : days_in_month y 12 = 31 := by
  cases hl : is_leap y <;> simp [days_in_month, mdays, hl]

lemma days_in_month_one (y : Int) : days_in_month y 1 = 31 := by
  cases hl : is_leap y <;> simp [days_in_month, mdays, hl]

lemma days_before_year_succ (y : Int) :
    days_before_year (y + 1) = days_before_year y + 365 + (if is_leap y then 1 else 0) := by
  by_cases hl : is_leap y = true
  · rw [if_pos hl]
    unfold is_leap at hl
    simp only [Bool.and_eq_true, Bool.or_eq_true, decide_eq_true_eq] at hl
    unfold days_before_year
    omega
  · rw [if_neg hl]
    unfold is_leap at hl
    simp only [Bool.and_eq_true, Bool.or_eq_true, decide_eq_true_eq] at hl
    unfold days_before_year
    omega

lemma next_day_spec (d : Date) (h : ValidDate d) :
    ValidDate (next_day d) ∧ to_ordinal (next_day d) = to_ordinal d + 1 := by
  obtain ⟨h1, h2, h3, h4⟩ := h
  unfold next_day
  split_ifs with hd hm
  · refine ⟨⟨?_, ?_, ?_, ?_⟩, ?_⟩ <;> ((try simp only [to_ordinal]) <;> (try dsimp only at *)) <;> omega
  · have hdm : d.day = days_in_month d.year d.month := by omega
    have hs := days_before_month_succ d.year d.month h1 h2
    have hb := days_in_month_bounds d.year (d.month + 1) (by omega) (by omega)
    refine ⟨⟨?_, ?_, ?_, ?_⟩, ?_⟩ <;> ((try simp only [to_ordinal]) <;> (try dsimp only at *)) <;> omega
  · have hm12 : d.month = 12 := by omega
    have h31 : days_in_month d.year d.month = 31 := by
      rw [hm12]; exact days_in_month_twelve d.year
    have hday : d.day = 31 := by omega
    have e1 := days_before_year_succ d.year
    have e2 : days_before_month d.year d.month = 334 + (if is_leap d.year then 1 else 0) := by
      rw [hm12]; exact days_before_month_twelve d.year
    have e3 := days_in_month_one (d.year + 1)
    have e4 : days_before_month (d.year + 1) 1 = 0 := days_before_month_one (d.year + 1)
    refine ⟨⟨?_, ?_, ?_, ?_⟩, ?_⟩ <;>
      ((try simp only [to_ordinal]) <;> (try dsimp only at *)) <;>
      (cases hl : is_leap d.year <;> simp [hl] at e1 e2 <;> omega)

lemma prev_day_spec (d : Date) (h : ValidDate d) :
    ValidDate (prev_day d) ∧ to_ordinal (prev_day d) = to_ordinal d - 1 := by
  obtain ⟨h1, h2, h3, h4⟩ := h
  unfold prev_day
  split_ifs with hd hm
  · refine ⟨⟨?_, ?_, ?_, ?_⟩, ?_⟩ <;> ((try simp only [to_ordinal]) <;> (try dsimp only at *)) <;> omega
  · have hday : d.day = 1 := by omega
    have hs := days_before_month_succ d.year (d.month - 1) (by omega) (by omega)
    have hb := days_in_month_bounds d.year (d.month - 1) (by omega) (by omega)
    have hsub : d.month - 1 + 1 = d.month := by omega
    rw [hsub] at hs
    refine ⟨⟨?_, ?_, ?_, ?_⟩, ?_⟩ <;> ((try simp only [to_ordinal]) <;> (try dsimp only at *)) <;> omega
  · have hm1 : d.month = 1 := by omega
    have hday : d.day = 1 := by omega
    have e1 := days_before_year_succ (d.year - 1)
    have e2 := days_before_month_twelve (d.year - 1)
    have e3 : days_in_month (d.year - 1) 12 = 31 := days_in_month_twelve (d.year - 1)
    have e5 : days_before_month d.year d.month = 0 := by
      rw [hm1]; exact days_before_month_one d.year
    have e6 : d.year - 1 + 1 = d.year := by omega
    rw [e6] at e1
    refine ⟨⟨?_, ?_, ?_, ?_⟩, ?_⟩ <;>
      ((try simp only [to_ordinal]) <;> (try dsimp only at *)) <;>
      (cases hl : is_leap (d.year - 1) <;> simp [hl] at e1 e2 <;> omega)

lemma add_days_spec (d : Date) (h : ValidDate d) (n : ℕ) :
    ValidDate (add_days d n) ∧ to_ordinal (add_days d n) = to_ordinal d + n := by
  induction n with
  | zero => exact ⟨h, by simp [add_days]⟩
  | succ n ih =>
    have hstep := next_day_spec _ ih.1
    have he : add_days d (n + 1) = next_day (add_days d n) := by
      unfold add_days
      exact Function.iterate_succ_apply' next_day n d
    refine ⟨by rw [he]; exact hstep.1, ?_⟩
    rw [he, hstep.2, ih.2]
    push_cast
    ring

lemma sub_days_spec (d : Date) (h : ValidDate d) (n : ℕ) :
    ValidDate (sub_days d n) ∧ to_ordinal (sub_days d n) = to_ordinal d - n := by
  induction n with
  | zero => exact ⟨h, by simp [sub_days]⟩
  | succ n ih =>
    have hstep := prev_day_spec _ ih.1
    have he : sub_days d (n + 1) = prev_day (sub_days d n) := by
      unfold sub_days
      exact Function.iterate_succ_apply' prev_day n d
    refine ⟨by rw [he]; exact hstep.1, ?_⟩
    rw [he, hstep.2, ih.2]
    push_cast
    ring

lemma weekday_bounds (d : Date) : 0 ≤ weekday d ∧ weekday d < 7 := by
  unfold weekday
  exact ⟨Int.emod_nonneg _ (by norm_num), Int.emod_lt_of_pos _ (by norm_num)⟩

lemma monday_of_week_spec (d : Date) (h : ValidDate d) :
    ValidDate (sub_days d (weekday d).toNat) ∧
    to_ordinal (sub_days d (weekday d).toNat) = to_ordinal d - weekday d ∧
    weekday (sub_days d (weekday d).toNat) = 0 := by
  have hw := weekday_bounds d
  have hc : ((weekday d).toNat : Int) = weekday d := Int.toNat_of_nonneg hw.1
  have hs := sub_days_spec d h (weekday d).toNat
  refine ⟨hs.1, by rw [hs.2, hc], ?_⟩
  unfold weekday at *
  rw [hs.2, hc]
  omega

lemma add_months_first (y m k : Int) (h1 : 1 ≤ m) (h2 : m ≤ 12) :
    month_index (add_months ⟨y, m, 1⟩ k) = (12 * y + (m - 1)) + k ∧
    (add_months ⟨y, m, 1⟩ k).day = 1 ∧
    ValidDate (add_months ⟨y, m, 1⟩ k) := by
  unfold add_months month_index
  dsimp only
  have hm1 : 1 ≤ (m - 1 + k) % 12 + 1 := by omega
  have hm2 : (m - 1 + k) % 12 + 1 ≤ 12 := by omega
  have hb := days_in_month_bounds (y + (m - 1 + k) / 12) ((m - 1 + k) % 12 + 1) hm1 hm2
  have hmin : min 1 (days_in_month (y + (m - 1 + k) / 12) ((m - 1 + k) % 12 + 1)) = 1 :=
    min_eq_left hb.1
  refine ⟨by omega, hmin, ⟨hm1, hm2, ?_, ?_⟩⟩
  · dsimp only
    omega
  · dsimp only
    rw [hmin]
    exact hb.1

/-! ### Rolling-window helpers -/

lemma take_succ_drop {α : Type} : ∀ (xs : List α) (i : ℕ) (h : i < xs.length),
    (xs.take (i + 1)).drop i = [xs.get ⟨i, h⟩]
  | _ :: _, 0, _ => rfl
  | x :: xs, i + 1, h => by
    rw [List.take_succ_cons, List.drop_succ_cons]
    exact take_succ_drop xs i (Nat.lt_of_succ_lt_succ h)

lemma win_vals_one (xs : List (Option ℚ)) (i : ℕ) (h : i < xs.length) :
    win_vals 1 xs i = (xs.getD i none).toList := by
  unfold win_vals
  rw [Nat.add_sub_cancel, take_succ_drop xs i h, List.getD_eq_getElem xs none h]
  cases hx : xs.get ⟨i, h⟩ <;> simp [List.get_eq_getElem] at hx <;> rw [hx] <;> rfl

lemma rolling_mean_length (w : ℕ) (xs : List (Option ℚ)) :
    (rolling_mean w xs).length = xs.length := by
  unfold rolling_mean
  simp

lemma rolling_mean_get? (w : ℕ) (xs : List (Option ℚ)) (i : ℕ) (h : i < xs.length) :
    (rolling_mean w xs).get? i =
      some (if (win_vals w xs i).length = 0 then none
        else some ((win_vals w xs i).sum / ((win_vals w xs i).length : ℚ))) := by
  unfold rolling_mean
  rw [List.get?_map, List.get?_range h]
  rfl

lemma rolling_var_get? (w : ℕ) (xs : List (Option ℚ)) (i : ℕ) (h : i < xs.length) :
    (rolling_var w xs).get? i =
      some (if (win_vals w xs i).length < 2 then none
        else some (((win_vals w xs i).map
            (fun x => (x - (win_vals w xs i).sum / ((win_vals w xs i).length : ℚ)) ^ 2)).sum /
          (((win_vals w xs i).length : ℚ) - 1))) := by
  unfold rolling_var
  rw [List.get?_map, List.get?_range h]
  rfl

lemma mem_acts_in_range (acts : List Act) (s e : Date) (a : Act) :
    a ∈ acts_in_range acts s e ↔
      a ∈ acts ∧ ∃ t, a.startTime = some t ∧ midnight s ≤ t ∧ t < midnight e := by
  unfold acts_in_range
  rw [List.mem_filter]
  constructor
  · rintro ⟨hmem, hcond⟩
    refine ⟨hmem, ?_⟩
    cases ht : a.startTime with
    | none => rw [ht] at hcond; simp at hcond
    | some t =>
      rw [ht] at hcond
      dsimp only at hcond
      rw [decide_eq_true_eq] at hcond
      exact ⟨t, rfl, hcond.1, hcond.2⟩
  · rintro ⟨hmem, t, ht, h1, h2⟩
    refine ⟨hmem, ?_⟩
    rw [ht]
    dsimp only
    rw [decide_eq_true_eq]
    exact ⟨h1, h2⟩

/-! ### Claim theorems -/

/-- Claim C7: for every zone table with `0 < z1 < z2 < z3 < z4 < z5`,
the zone classifier is monotone non-decreasing in the heart rate,
assigns by upper-bound-inclusive first match with `zone(z4) = 4` and
`zone(z4+1) = 5`, and maps a null heart rate to null. -/
theorem zone_classifier_props (zs : Zones)
    (h : 0 < zs.z1_max ∧ zs.z1_max < zs.z2_max ∧ zs.z2_max < zs.z3_max ∧
      zs.z3_max < zs.z4_max ∧ zs.z4_max < zs.z5_max) :
    (∀ a b : ℚ, a ≤ b →
      (zone_for_hr (some a) zs).getD 0 ≤ (zone_for_hr (some b) zs).getD 0)
    ∧ zone_for_hr (some zs.z4_max) zs = some 4
    ∧ zone_for_hr (some (zs.z4_max + 1)) zs = some 5
    ∧ zone_for_hr none zs = none := by
  obtain ⟨h1, h2, h3, h4, h5⟩ := h
  refine ⟨?_, ?_, ?_, rfl⟩
  · intro a b hab
    simp only [zone_for_hr]
    split_ifs <;> simp only [Option.getD_some] <;>
      first
      | omega
      | (exfalso; linarith)
  · simp only [zone_for_hr]
    split_ifs <;> first | rfl | (exfalso; linarith)
  · simp only [zone_for_hr]
    split_ifs <;> first | rfl | (exfalso; linarith)

/-- Witness for C7 at the zone table (120, 140, 160, 180, 200). -/
theorem zone_classifier_props_witness :
    ((0:ℚ) < 120 ∧ (120:ℚ) < 140 ∧ (140:ℚ) < 160 ∧ (160:ℚ) < 180 ∧ (180:ℚ) < 200)
    ∧ ((∀ a b : ℚ, a ≤ b →
        (zone_for_hr (some a) ⟨120, 140, 160, 180, 200⟩).getD 0 ≤
          (zone_for_hr (some b) ⟨120, 140, 160, 180, 200⟩).getD 0)
      ∧ zone_for_hr (some 180) ⟨120, 140, 160, 180, 200⟩ = some 4
      ∧ zone_for_hr (some 181) ⟨120, 140, 160, 180, 200⟩ = some 5
      ∧ zone_for_hr none ⟨120, 140, 160, 180, 200⟩ = none) := by
  refine ⟨by norm_num, ?_⟩
  have h := zone_classifier_props ⟨120, 140, 160, 180, 200⟩ (by norm_num)
  refine ⟨h.1, h.2.1, ?_, h.2.2.2⟩
  have := h.2.2.1
  norm_num at this
  exact this

/-- Claim C4: a consecutive-sample pair whose time delta is unknown or
outside `(0, 30]` seconds contributes nothing to any zone's seconds or
meters totals — the pair is skipped, not an error. -/
theorem gap_pair_contributes_nothing (zones : Zones) (ix : Idxs) (st : LoopSt) (r : MRow)
    (h : dt_of ix st.prevT st.prevTs r = none ∨
      ∃ v, dt_of ix st.prevT st.prevTs r = some v ∧ ¬(0 < v ∧ v ≤ 30)) :
    (zstep zones ix st r).sec = st.sec ∧ (zstep zones ix st r).met = st.met := by
  unfold zstep
  cases hdt : dt_of ix st.prevT st.prevTs r with
  | none => exact ⟨rfl, rfl⟩
  | some v =>
    rcases h with hnone | ⟨u, hu, hcond⟩
    · rw [hdt] at hnone; exact absurd hnone (by simp)
    · rw [hdt] at hu
      injection hu with huv
      subst huv
      dsimp only
      rw [if_neg hcond]
      exact ⟨rfl, rfl⟩

/-- Witness for C4: two samples 40 seconds apart contribute nothing. -/
theorem gap_pair_contributes_nothing_witness :
    dt_of ⟨some 1, some 0, none, none⟩ (some 0) none ⟨some [JCell.num 40, JCell.num 120]⟩ = some 40
    ∧ (zstep ⟨120, 140, 160, 180, 200⟩ ⟨some 1, some 0, none, none⟩
        ⟨some 0, none, none, zeros6, zeros6⟩ ⟨some [JCell.num 40, JCell.num 120]⟩).sec = zeros6
    ∧ (zstep ⟨120, 140, 160, 180, 200⟩ ⟨some 1, some 0, none, none⟩
        ⟨some 0, none, none, zeros6, zeros6⟩ ⟨some [JCell.num 40, JCell.num 120]⟩).met = zeros6 := by
  refine ⟨by norm_num [dt_of, get_metric], ?_⟩
  exact gap_pair_contributes_nothing ⟨120, 140, 160, 180, 200⟩ ⟨some 1, some 0, none, none⟩
    ⟨some 0, none, none, zeros6, zeros6⟩ ⟨some [JCell.num 40, JCell.num 120]⟩
    (Or.inr ⟨40, by norm_num [dt_of, get_metric], by norm_num⟩)

/-- Claim C5: an in-window activity with no detail metrics has its
whole summary duration, and its summary distance when positive,
attributed to the single zone of its average heart rate, defaulting to
zone 1 when the average heart rate is absent or unclassifiable. -/
theorem no_details_single_zone (zones : Zones) (acc : List ℚ × List ℚ) (a : Act)
    (h : a.details = none) :
    dash_step zones acc a =
      (acc.1.set ((zone_for_hr a.averageHR zones).getD 1)
          (acc.1.getD ((zone_for_hr a.averageHR zones).getD 1) 0 + dur_val a),
        if dist_val a > 0 then
          acc.2.set ((zone_for_hr a.averageHR zones).getD 1)
            (acc.2.getD ((zone_for_hr a.averageHR zones).getD 1) 0 + dist_val a)
        else acc.2) := by
  unfold dash_step
  have hps : per_sample a zones = (zeros6, zeros6) := by
    unfold per_sample
    rw [h]
  rw [hps]
  norm_num [zeros6]

/-- Witness for C5: distance 5000, duration 1500, average HR 150 under
the table (120, 140, 160, 180, 200) puts 1500 s and 5000 m in
zone 3. -/
theorem no_details_single_zone_witness :
    (⟨none, some 5000, some 1500, some 150, none⟩ : Act).details = none
    ∧ dash_step ⟨120, 140, 160, 180, 200⟩ (zeros6, zeros6)
        ⟨none, some 5000, some 1500, some 150, none⟩ =
      ([0, 0, 0, 1500, 0, 0], [0, 0, 0, 5000, 0, 0]) := by
  refine ⟨rfl, ?_⟩
  rw [no_details_single_zone ⟨120, 140, 160, 180, 200⟩ (zeros6, zeros6)
    ⟨none, some 5000, some 1500, some 150, none⟩ rfl]
  norm_num [zone_for_hr, zeros6, dur_val, dist_val]

/-- Claim C10: an in-window activity that has detail metrics but whose
per-sample computation yields zero total zone-seconds is aggregated
exactly like an activity with no detail metrics: full summary duration
(and positive summary distance) go to the single zone of its average
heart rate, defaulting to zone 1. -/
theorem zero_per_sample_like_no_details (zones : Zones) (acc : List ℚ × List ℚ)
    (a : Act) (d : Details) (hd : a.details = some d)
    (hz : (compute_zone_load_from_metrics d zones).1.sum = 0) :
    dash_step zones acc a =
      dash_step zones acc ⟨a.startTime, a.distance, a.duration, a.averageHR, none⟩
    ∧ dash_step zones acc a =
      (acc.1.set ((zone_for_hr a.averageHR zones).getD 1)
          (acc.1.getD ((zone_for_hr a.averageHR zones).getD 1) 0 + dur_val a),
        if dist_val a > 0 then
          acc.2.set ((zone_for_hr a.averageHR zones).getD 1)
            (acc.2.getD ((zone_for_hr a.averageHR zones).getD 1) 0 + dist_val a)
        else acc.2) := by
  have hps : per_sample a zones = compute_zone_load_from_metrics d zones := by
    unfold per_sample
    rw [hd]
  have hgone : ¬ (per_sample a zones).1.sum > 0 := by
    rw [hps, hz]
    norm_num
  have hkey : dash_step zones acc a =
      (acc.1.set ((zone_for_hr a.averageHR zones).getD 1)
          (acc.1.getD ((zone_for_hr a.averageHR zones).getD 1) 0 + dur_val a),
        if dist_val a > 0 then
          acc.2.set ((zone_for_hr a.averageHR zones).getD 1)
            (acc.2.getD ((zone_for_hr a.averageHR zones).getD 1) 0 + dist_val a)
        else acc.2) := by
    unfold dash_step
    rw [if_neg hgone]
  refine ⟨?_, hkey⟩
  rw [hkey]
  unfold dash_step per_sample
  dsimp only
  norm_num [zeros6, dur_val, dist_val]

/-- Witness for C10: an activity with an empty (but present) details
bundle and duration 100 is aggregated exactly like the same activity
without details. -/
theorem zero_per_sample_like_no_details_witness :
    (⟨none, some 5000, some 100, none, some ⟨some [], some []⟩⟩ : Act).details =
      some ⟨some [], some []⟩
    ∧ (compute_zone_load_from_metrics ⟨some [], some []⟩ ⟨120, 140, 160, 180, 200⟩).1.sum = 0
    ∧ dash_step ⟨120, 140, 160, 180, 200⟩ (zeros6, zeros6)
        ⟨none, some 5000, some 100, none, some ⟨some [], some []⟩⟩ =
      dash_step ⟨120, 140, 160, 180, 200⟩ (zeros6, zeros6)
        ⟨none, some 5000, some 100, none, none⟩ := by
  refine ⟨rfl, by norm_num [compute_zone_load_from_metrics, zeros6], ?_⟩
  exact (zero_per_sample_like_no_details ⟨120, 140, 160, 180, 200⟩ (zeros6, zeros6)
    ⟨none, some 5000, some 100, none, some ⟨some [], some []⟩⟩ ⟨some [], some []⟩
    rfl (by norm_num [compute_zone_load_from_metrics, zeros6])).1

/-- Claim C1 (code bug evaluation): with descriptors
`[{key: "directHeartRate", metricsIndex: 0}]` the key is present with
index 0, but the resolver `idx_map.get("directHeartRate") or
idx_map.get("heartRate")` (webapp.py:615, 2132) yields not-found
because `0` is falsy in Python, so the heart-rate series is empty and
the zone load is all zeros — although extraction at index 0 yields
[110, 135, 190], which classifies to zones [1, 2, 5] as the spec
says. -/
theorem hr_index_resolution_drops_zero :
    idx_get (build_idx_map [RawDesc.dict (some "directHeartRate") (some 0)])
        "directHeartRate" = some 0
    ∧ resolve_hr_idx (build_idx_map [RawDesc.dict (some "directHeartRate") (some 0)]) = none
    ∧ collect_series
        [RawRow.dict ⟨some [JCell.num 110]⟩, RawRow.dict ⟨some [JCell.num 135]⟩,
          RawRow.dict ⟨some [JCell.num 190]⟩]
        (resolve_hr_idx (build_idx_map [RawDesc.dict (some "directHeartRate") (some 0)])) =
        .ok []
    ∧ collect_series
        [RawRow.dict ⟨some [JCell.num 110]⟩, RawRow.dict ⟨some [JCell.num 135]⟩,
          RawRow.dict ⟨some [JCell.num 190]⟩] (some 0) =
        .ok [some 110, some 135, some 190]
    ∧ Except.map (fun out => out.map (fun v => zone_for_hr v ⟨120, 140, 160, 180, 200⟩))
        (collect_series
          [RawRow.dict ⟨some [JCell.num 110]⟩, RawRow.dict ⟨some [JCell.num 135]⟩,
            RawRow.dict ⟨some [JCell.num 190]⟩] (some 0)) =
        .ok [some 1, some 2, some 5]
    ∧ compute_zone_load_from_metrics
        ⟨some [RawDesc.dict (some "directHeartRate") (some 0),
            RawDesc.dict (some "sumElapsedDuration") (some 1)],
          some [RawRow.dict ⟨some [JCell.num 110, JCell.num 0]⟩,
            RawRow.dict ⟨some [JCell.num 135, JCell.num 10]⟩,
            RawRow.dict ⟨some [JCell.num 190, JCell.num 20]⟩]⟩
        ⟨120, 140, 160, 180, 200⟩ = (zeros6, zeros6) := by
  exact ⟨rfl, rfl, rfl, rfl, rfl, rfl⟩

/-- Claim C8 (amended): for every row list and every nonnegative
resolved index, series extraction never raises, yields one entry per
row, maps a missing/short `metrics` row to null at that position, and
otherwise carries `_safe_float` of the cell (null for a null or
non-numeric cell, the value for a numeric one). -/
theorem collect_series_nonneg_index_total (rows : List RawRow) (i : Int) (hi : 0 ≤ i) :
    ∃ out, collect_series rows (some i) = .ok out ∧ out.length = rows.length ∧
      ∀ j : ℕ, j < rows.length →
        out.getD j none =
          (match row_metrics (rows.getD j .nondict) with
           | none => none
           | some m => if i.toNat < m.length then safe_float (m.getD i.toNat .null) else none) := by
  induction rows with
  | nil => exact ⟨[], rfl, rfl, by intro j hj; simp at hj⟩
  | cons r rest ih =>
    obtain ⟨out, hok, hlen, hchar⟩ := ih
    have hok' : collect_go i rest = .ok out := hok
    cases hm : row_metrics r with
    | none =>
      refine ⟨none :: out, ?_, by simp [hlen], ?_⟩
      · show collect_go i (r :: rest) = _
        unfold collect_go
        rw [hm, hok']
        rfl
      · intro j hj
        cases j with
        | zero => simp [hm]
        | succ j =>
          simp only [List.getD_cons_succ]
          exact hchar j (by simpa using hj)
    | some m =>
      by_cases hge : (m.length : Int) ≤ i
      · refine ⟨none :: out, ?_, by simp [hlen], ?_⟩
        · show collect_go i (r :: rest) = _
          unfold collect_go
          rw [hm]
          dsimp only
          rw [if_pos hge, hok']
          rfl
        · intro j hj
          cases j with
          | zero =>
            have : ¬ i.toNat < m.length := by omega
            simp [hm, this]
          | succ j =>
            simp only [List.getD_cons_succ]
            exact hchar j (by simpa using hj)
      · have hlt : i.toNat < m.length := by omega
        have hget := list_get?_of_lt m i.toNat hlt JCell.null
        refine ⟨safe_float (m.getD i.toNat JCell.null) :: out, ?_, by simp [hlen], ?_⟩
        · show collect_go i (r :: rest) = _
          unfold collect_go
          rw [hm]
          dsimp only
          rw [if_neg hge, if_pos hi, hget, hok']
          rfl
        · intro j hj
          cases j with
          | zero => simp [hm, hlt]
          | succ j =>
            simp only [List.getD_cons_succ]
            exact hchar j (by simpa using hj)

/-- Witness for C8 at index 1 over a row with a numeric and a null
cell, a short row, and a non-dict row. -/
theorem collect_series_nonneg_index_total_witness :
    ∃ out, collect_series
        [RawRow.dict ⟨some [JCell.num 7, JCell.num 9]⟩,
          RawRow.dict ⟨some [JCell.num 7, JCell.null]⟩,
          RawRow.dict ⟨some [JCell.num 7]⟩, RawRow.nondict] (some 1) = .ok out ∧
      out.length = 4 ∧
      ∀ j : ℕ, j < 4 →
        out.getD j none =
          (match row_metrics
              (([RawRow.dict ⟨some [JCell.num 7, JCell.num 9]⟩,
                RawRow.dict ⟨some [JCell.num 7, JCell.null]⟩,
                RawRow.dict ⟨some [JCell.num 7]⟩, RawRow.nondict].getD j .nondict)) with
           | none => none
           | some m => if (1 : Int).toNat < m.length then
               safe_float (m.getD (1 : Int).toNat .null) else none) :=
  collect_series_nonneg_index_total
    [RawRow.dict ⟨some [JCell.num 7, JCell.num 9]⟩,
      RawRow.dict ⟨some [JCell.num 7, JCell.null]⟩,
      RawRow.dict ⟨some [JCell.num 7]⟩, RawRow.nondict] 1 (by norm_num)

/-- Counterexample for C8 as stated: at resolved index `-3` on a row
whose `metrics` has one element, `metrics[-3]` raises `IndexError`
(`_collect_series` has no try/except around the indexing), so the
extraction does raise. -/
theorem collect_series_raises_on_negative_index :
    collect_series [RawRow.dict ⟨some [JCell.num 1]⟩] (some (-3)) = .error ()
    ∧ ∀ out, collect_series [RawRow.dict ⟨some [JCell.num 1]⟩] (some (-3)) ≠ .ok out := by
  have h : collect_series [RawRow.dict ⟨some [JCell.num 1]⟩] (some (-3)) = .error () := by
    norm_num [collect_series, collect_go, row_metrics]
  refine ⟨h, fun out hout => ?_⟩
  rw [h] at hout
  exact Except.noConfusion hout

/-- Claim C3 (amended): conservation of total time — for every
activity list and period window, the sum of zone-seconds over all
zones equals the sum over in-window activities of the attributed
duration, where the attributed duration is the per-sample total when
that total is positive and the full summary duration otherwise
(HR-less activities included via the zone-1 default). -/
theorem zone_seconds_conservation (zones : Zones) (acts : List Act) (s e : Date) :
    (dash_zone_agg zones (acts_in_range acts s e)).1.sum =
      ((acts_in_range acts s e).map (attributed_duration zones)).sum := by
  have h := foldl_dash_step_sum zones (acts_in_range acts s e) (zeros6, zeros6) rfl
  unfold dash_zone_agg
  rw [h.2]
  norm_num [zeros6]

/-- Counterexample for C3 as stated: an in-window activity with a
present but empty details bundle has per-sample duration 0, yet the
aggregator attributes its summary duration 100 to zone 1, so the
zone-second total (100) differs from the spec-side attributed sum (0,
since the spec attributes the per-sample duration to any activity that
has detail metrics). -/
theorem zone_seconds_conservation_spec_cex :
    (dash_zone_agg ⟨120, 140, 160, 180, 200⟩
        (acts_in_range
          [⟨some (midnight ⟨1, 6, 1⟩), none, some 100, none, some ⟨some [], some []⟩⟩]
          ⟨1, 1, 1⟩ ⟨2, 1, 1⟩)).1.sum ≠
      ((acts_in_range
          [⟨some (midnight ⟨1, 6, 1⟩), none, some 100, none, some ⟨some [], some []⟩⟩]
          ⟨1, 1, 1⟩ ⟨2, 1, 1⟩).map
        (spec_attributed_duration ⟨120, 140, 160, 180, 200⟩)).sum := by
  have hin : acts_in_range
      [⟨some (midnight ⟨1, 6, 1⟩), none, some 100, none, some ⟨some [], some []⟩⟩]
      ⟨1, 1, 1⟩ ⟨2, 1, 1⟩ =
      [⟨some (midnight ⟨1, 6, 1⟩), none, some 100, none, some ⟨some [], some []⟩⟩] := by
    simp [acts_in_range, List.filter, midnight, to_ordinal, days_before_year,
      days_before_month, mdays, is_leap]
    decide
  rw [hin]
  simp [dash_zone_agg, dash_step, per_sample, compute_zone_load_from_metrics,
    spec_attributed_duration, dur_val, dist_val, zone_for_hr, zeros6]
  try norm_num

/-- Claim C6: a distance delta outside `[0, 200]` meters is treated as
unknown — the pair's seconds still go to the heart-rate zone while the
meters do not; and when the metrics yield no usable distance but the
summary distance is positive, zone-distance is apportioned by
time-share: each zone gets `summary_distance * zone_seconds /
total_zone_seconds`. -/
theorem distance_delta_rules (zones : Zones) :
    (∀ (ix : Idxs) (st : LoopSt) (r : MRow) (v u : ℚ) (z : ℕ),
      dt_of ix st.prevT st.prevTs r = some v → 0 < v → v ≤ 30 →
      dd_of ix st.prevD r = some u → ¬(0 ≤ u ∧ u ≤ 200) →
      zone_for_hr (get_metric r ix.hr) zones = some z →
      (zstep zones ix st r).sec = st.sec.set z (st.sec.getD z 0 + v) ∧
      (zstep zones ix st r).met = st.met)
    ∧ (∀ (acc : List ℚ × List ℚ) (a : Act) (d : Details),
      acc.2.length = 6 →
      a.details = some d →
      (compute_zone_load_from_metrics d zones).2.sum ≤ 0 →
      (compute_zone_load_from_metrics d zones).1.sum > 0 →
      dist_val a > 0 →
      ∀ z : ℕ, 1 ≤ z → z ≤ 5 →
      (dash_step zones acc a).2.getD z 0 =
        acc.2.getD z 0 + dist_val a *
          ((compute_zone_load_from_metrics d zones).1.getD z 0 /
            (compute_zone_load_from_metrics d zones).1.sum)) := by
  constructor
  · intro ix st r v u z hdt hv1 hv2 hdd hu hz
    unfold zstep
    rw [hdt]
    dsimp only
    rw [if_pos ⟨hv1, hv2⟩, hdd]
    dsimp only
    rw [if_neg hu, hz]
    exact ⟨rfl, rfl⟩
  · intro acc a d hacc hd hm hs hdist z hz1 hz5
    have hps : per_sample a zones = compute_zone_load_from_metrics d zones := by
      unfold per_sample
      rw [hd]
    have hzero : ∀ n : ℕ, (compute_zone_load_from_metrics d zones).2.getD n 0 = 0 :=
      goodvec_zero_slots _ (compute_zone_load_good d zones).2 hm
    have hmz : add_zones acc.2 (compute_zone_load_from_metrics d zones).2 = acc.2 :=
      add_zones_of_zero_slots acc.2 _ hacc hzero
    unfold dash_step
    rw [hps, if_pos hs]
    dsimp only
    rw [if_pos ⟨hm, hdist, hs⟩, hmz]
    exact apportion_getD acc.2 (dist_val a) _ hacc z hz1 hz5

/-- Witness for C6: a pair with dt 10 s and dd 500 m counts its
seconds in zone 1 and no meters; an activity whose metrics yield 10
zone-1 seconds and no distance has its summary distance 100 fully
apportioned to zone 1 by time-share. -/
theorem distance_delta_rules_witness :
    ((zstep ⟨120, 140, 160, 180, 200⟩ ⟨some 1, some 0, none, some 2⟩
        ⟨some 0, none, some 0, zeros6, zeros6⟩ ⟨some [JCell.num 10, JCell.num 100, JCell.num 500]⟩).sec =
          zeros6.set 1 (zeros6.getD 1 0 + 10) ∧
      (zstep ⟨120, 140, 160, 180, 200⟩ ⟨some 1, some 0, none, some 2⟩
        ⟨some 0, none, some 0, zeros6, zeros6⟩ ⟨some [JCell.num 10, JCell.num 100, JCell.num 500]⟩).met =
          zeros6)
    ∧ (dash_step ⟨120, 140, 160, 180, 200⟩ (zeros6, zeros6)
        ⟨none, some 100, some 0, none, some
          ⟨some [RawDesc.dict (some "directHeartRate") (some 1),
            RawDesc.dict (some "sumElapsedDuration") (some 0)],
          some [RawRow.dict ⟨some [JCell.num 0, JCell.num 100]⟩,
            RawRow.dict ⟨some [JCell.num 10, JCell.num 100]⟩]⟩⟩).2.getD 1 0 =
      (zeros6, zeros6).2.getD 1 0 + dist_val
          ⟨none, some 100, some 0, none, some
            ⟨some [RawDesc.dict (some "directHeartRate") (some 1),
              RawDesc.dict (some "sumElapsedDuration") (some 0)],
            some [RawRow.dict ⟨some [JCell.num 0, JCell.num 100]⟩,
              RawRow.dict ⟨some [JCell.num 10, JCell.num 100]⟩]⟩⟩ *
        ((compute_zone_load_from_metrics
            ⟨some [RawDesc.dict (some "directHeartRate") (some 1),
              RawDesc.dict (some "sumElapsedDuration") (some 0)],
            some [RawRow.dict ⟨some [JCell.num 0, JCell.num 100]⟩,
              RawRow.dict ⟨some [JCell.num 10, JCell.num 100]⟩]⟩
            ⟨120, 140, 160, 180, 200⟩).1.getD 1 0 /
          (compute_zone_load_from_metrics
            ⟨some [RawDesc.dict (some "directHeartRate") (some 1),
              RawDesc.dict (some "sumElapsedDuration") (some 0)],
            some [RawRow.dict ⟨some [JCell.num 0, JCell.num 100]⟩,
              RawRow.dict ⟨some [JCell.num 10, JCell.num 100]⟩]⟩
            ⟨120, 140, 160, 180, 200⟩).1.sum) := by
  constructor
  · exact (distance_delta_rules ⟨120, 140, 160, 180, 200⟩).1
      ⟨some 1, some 0, none, some 2⟩ ⟨some 0, none, some 0, zeros6, zeros6⟩
      ⟨some [JCell.num 10, JCell.num 100, JCell.num 500]⟩ 10 500 1
      (by simp [dt_of, get_metric]) (by norm_num) (by norm_num)
      (by simp [dd_of, get_metric]) (by norm_num)
      (by simp [get_metric, zone_for_hr] <;> norm_num)
  · have h1 : (compute_zone_load_from_metrics
        ⟨some [RawDesc.dict (some "directHeartRate") (some 1),
          RawDesc.dict (some "sumElapsedDuration") (some 0)],
        some [RawRow.dict ⟨some [JCell.num 0, JCell.num 100]⟩,
          RawRow.dict ⟨some [JCell.num 10, JCell.num 100]⟩]⟩
        ⟨120, 140, 160, 180, 200⟩).2.sum ≤ 0 := by
      simp [compute_zone_load_from_metrics, build_idx_map, idx_get, or_falsy,
        resolve_hr_idx, zstep, dt_of, dd_of, get_metric, zone_for_hr, zeros6]
      try norm_num
    have h2 : (compute_zone_load_from_metrics
        ⟨some [RawDesc.dict (some "directHeartRate") (some 1),
          RawDesc.dict (some "sumElapsedDuration") (some 0)],
        some [RawRow.dict ⟨some [JCell.num 0, JCell.num 100]⟩,
          RawRow.dict ⟨some [JCell.num 10, JCell.num 100]⟩]⟩
        ⟨120, 140, 160, 180, 200⟩).1.sum > 0 := by
      simp [compute_zone_load_from_metrics, build_idx_map, idx_get, or_falsy,
        resolve_hr_idx, zstep, dt_of, dd_of, get_metric, zone_for_hr, zeros6]
      try norm_num
    exact (distance_delta_rules ⟨120, 140, 160, 180, 200⟩).2
      (zeros6, zeros6)
      ⟨none, some 100, some 0, none, some
        ⟨some [RawDesc.dict (some "directHeartRate") (some 1),
          RawDesc.dict (some "sumElapsedDuration") (some 0)],
        some [RawRow.dict ⟨some [JCell.num 0, JCell.num 100]⟩,
          RawRow.dict ⟨some [JCell.num 10, JCell.num 100]⟩]⟩⟩
      ⟨some [RawDesc.dict (some "directHeartRate") (some 1),
          RawDesc.dict (some "sumElapsedDuration") (some 0)],
        some [RawRow.dict ⟨some [JCell.num 0, JCell.num 100]⟩,
          RawRow.dict ⟨some [JCell.num 10, JCell.num 100]⟩]⟩
      rfl rfl h1 h2 (by norm_num [dist_val]) 1 (by norm_num) (by norm_num)

/-- Claim C2 (amended): the chart series builder computes the moving
average over the trailing window with `min_periods = 1`; with window 1
the moving average reproduces the raw series exactly (nulls included);
and at every position whose trailing window contains only one sample
the confidence half-width `1.96 * std / sqrt(w)` is null/NaN — not
zero — because the sample standard deviation (pandas `ddof = 1`) is
undefined for a single observation. -/
theorem rolling_props :
    (∀ xs : List (Option ℚ), rolling_mean 1 xs = xs)
    ∧ (∀ (w : ℕ) (xs : List (Option ℚ)) (i : ℕ), i < xs.length →
        1 ≤ (win_vals w xs i).length → (rolling_mean w xs).getD i none ≠ none)
    ∧ (∀ (w : ℕ) (xs : List (Option ℚ)) (i : ℕ), i < xs.length →
        (win_vals w xs i).length = 1 → (rolling_ci w xs).getD i (some 1) = none) := by
  refine ⟨?_, ?_, ?_⟩
  · intro xs
    rw [List.ext_get?_iff]
    intro n
    by_cases h : n < xs.length
    · rw [rolling_mean_get? 1 xs n h, list_get?_of_lt xs n h none, win_vals_one xs n h]
      cases hx : xs.getD n none with
      | none => simp
      | some v => simp
    · rw [List.get?_eq_none.mpr (by rw [rolling_mean_length]; omega),
        List.get?_eq_none.mpr (by omega)]
  · intro w xs i h hlen
    rw [List.getD_eq_getD_get?, rolling_mean_get? w xs i h]
    rw [if_neg (by omega)]
    simp
  · intro w xs i h hlen
    unfold rolling_ci rolling_std
    rw [List.getD_eq_getD_get?, List.get?_map, List.get?_map, rolling_var_get? w xs i h,
      if_pos (by omega)]
    simp

/-- Witness for C2: window-1 mean on `[some 2, none]`, a defined mean
at a position with two samples in the window, and a null CI at a
single-sample position. -/
theorem rolling_props_witness :
    rolling_mean 1 [some (2:ℚ), none] = [some (2:ℚ), none]
    ∧ (rolling_mean 7 [some (1:ℚ), some 3]).getD 1 none ≠ none
    ∧ (rolling_ci 7 [some (5:ℚ), some 3]).getD 0 (some 1) = none :=
  ⟨rolling_props.1 [some (2:ℚ), none],
    rolling_props.2.1 7 [some (1:ℚ), some 3] 1 (by norm_num) (by decide),
    rolling_props.2.2 7 [some (5:ℚ), some 3] 0 (by norm_num) (by decide)⟩

/-- Counterexample for C2 as stated: on the one-point series
`[some 5]` with window 7, position 0 has exactly one sample in its
trailing window, yet the CI there is null (NaN from the
single-sample standard deviation), not zero. -/
theorem single_sample_ci_is_nan :
    (win_vals 7 [some (5:ℚ)] 0).length = 1
    ∧ rolling_ci 7 [some (5:ℚ)] = [none]
    ∧ rolling_ci 7 [some (5:ℚ)] ≠ [some 0] := by
  have hv : rolling_var 7 [some (5:ℚ)] = [none] := by decide
  refine ⟨by decide, ?_, ?_⟩
  · unfold rolling_ci rolling_std
    rw [hv]
    rfl
  · unfold rolling_ci rolling_std
    rw [hv]
    intro hcontra
    simp at hcontra

/-- Claim C9: for every (valid) anchor date, the "week" window is the
trailing 7 days including the anchor, i.e. `[anchor-6, anchor+1)`; the
"month" window is the 4 trailing ISO weeks ending with the anchor's
ISO week (it starts on the Monday 21 days before the anchor's Monday,
spans 28 days, and its last week contains the anchor); the "year"
window is the 12 trailing calendar months including the anchor's month
(first-of-month bounds, `month_index` from -11 to +1); and an activity
is in the window exactly when its start timestamp lies in
`[window_start, window_end)`. -/
theorem period_bounds_spec (anchor : Date) (h : ValidDate anchor) :
    (period_bounds .week anchor = (sub_days anchor 6, add_days anchor 1)
      ∧ to_ordinal (sub_days anchor 6) = to_ordinal anchor - 6
      ∧ to_ordinal (add_days anchor 1) = to_ordinal anchor + 1)
    ∧ (period_bounds .month anchor =
        (sub_days (sub_days anchor (weekday anchor).toNat) 21,
          add_days (sub_days anchor (weekday anchor).toNat) 7)
      ∧ weekday (sub_days anchor (weekday anchor).toNat) = 0
      ∧ to_ordinal (sub_days (sub_days anchor (weekday anchor).toNat) 21) =
          to_ordinal (sub_days anchor (weekday anchor).toNat) - 21
      ∧ to_ordinal (add_days (sub_days anchor (weekday anchor).toNat) 7) =
          to_ordinal (sub_days anchor (weekday anchor).toNat) + 7
      ∧ to_ordinal (sub_days anchor (weekday anchor).toNat) ≤ to_ordinal anchor
      ∧ to_ordinal anchor < to_ordinal (sub_days anchor (weekday anchor).toNat) + 7)
    ∧ (month_index (period_bounds .year anchor).1 = month_index anchor - 11
      ∧ month_index (period_bounds .year anchor).2 = month_index anchor + 1
      ∧ (period_bounds .year anchor).1.day = 1
      ∧ (period_bounds .year anchor).2.day = 1)
    ∧ (∀ (acts : List Act) (s e : Date) (a : Act),
        a ∈ acts_in_range acts s e ↔
          a ∈ acts ∧ ∃ t, a.startTime = some t ∧ midnight s ≤ t ∧ t < midnight e) := by
  have hmon := monday_of_week_spec anchor h
  have hw := weekday_bounds anchor
  refine ⟨⟨rfl, (sub_days_spec anchor h 6).2, (add_days_spec anchor h 1).2⟩, ?_, ?_,
    fun acts s e a => mem_acts_in_range acts s e a⟩
  · refine ⟨rfl, hmon.2.2, (sub_days_spec _ hmon.1 21).2, (add_days_spec _ hmon.1 7).2, ?_, ?_⟩
    · rw [hmon.2.1]; omega
    · rw [hmon.2.1]; omega
  · have ha := add_months_first anchor.year anchor.month (-11) h.1 h.2.1
    have hb := add_months_first anchor.year anchor.month 1 h.1 h.2.1
    have he1 : (period_bounds .year anchor).1 = add_months ⟨anchor.year, anchor.month, 1⟩ (-11) := rfl
    have he2 : (period_bounds .year anchor).2 = add_months ⟨anchor.year, anchor.month, 1⟩ 1 := rfl
    rw [he1, he2]
    refine ⟨?_, ?_, ha.2.1, hb.2.1⟩
    · rw [ha.1]; unfold month_index; omega
    · rw [hb.1]; unfold month_index; omega

/-- Witness for C9 at the anchor date 2026-10-12 (a Monday). -/
theorem period_bounds_spec_witness :
    ValidDate ⟨2026, 10, 12⟩
    ∧ ((period_bounds .week ⟨2026, 10, 12⟩ =
          (sub_days ⟨2026, 10, 12⟩ 6, add_days ⟨2026, 10, 12⟩ 1)
        ∧ to_ordinal (sub_days ⟨2026, 10, 12⟩ 6) = to_ordinal ⟨2026, 10, 12⟩ - 6
        ∧ to_ordinal (add_days ⟨2026, 10, 12⟩ 1) = to_ordinal ⟨2026, 10, 12⟩ + 1)
      ∧ (period_bounds .month ⟨2026, 10, 12⟩ =
            (sub_days (sub_days ⟨2026, 10, 12⟩ (weekday ⟨2026, 10, 12⟩).toNat) 21,
              add_days (sub_days ⟨2026, 10, 12⟩ (weekday ⟨2026, 10, 12⟩).toNat) 7)
        ∧ weekday (sub_days ⟨2026, 10, 12⟩ (weekday ⟨2026, 10, 12⟩).toNat) = 0
        ∧ to_ordinal (sub_days (sub_days ⟨2026, 10, 12⟩ (weekday ⟨2026, 10, 12⟩).toNat) 21) =
            to_ordinal (sub_days ⟨2026, 10, 12⟩ (weekday ⟨2026, 10, 12⟩).toNat) - 21
        ∧ to_ordinal (add_days (sub_days ⟨2026, 10, 12⟩ (weekday ⟨2026, 10, 12⟩).toNat) 7) =
            to_ordinal (sub_days ⟨2026, 10, 12⟩ (weekday ⟨2026, 10, 12⟩).toNat) + 7
        ∧ to_ordinal (sub_days ⟨2026, 10, 12⟩ (weekday ⟨2026, 10, 12⟩).toNat) ≤
            to_ordinal ⟨2026, 10, 12⟩
        ∧ to_ordinal ⟨2026, 10, 12⟩ <
            to_ordinal (sub_days ⟨2026, 10, 12⟩ (weekday ⟨2026, 10, 12⟩).toNat) + 7)
      ∧ (month_index (period_bounds .year ⟨2026, 10, 12⟩).1 = month_index ⟨2026, 10, 12⟩ - 11
        ∧ month_index (period_bounds .year ⟨2026, 10, 12⟩).2 = month_index ⟨2026, 10, 12⟩ + 1
        ∧ (period_bounds .year ⟨2026, 10, 12⟩).1.day = 1
        ∧ (period_bounds .year ⟨2026, 10, 12⟩).2.day = 1)
      ∧ (∀ (acts : List Act) (s e : Date) (a : Act),
          a ∈ acts_in_range acts s e ↔
            a ∈ acts ∧ ∃ t, a.startTime = some t ∧ midnight s ≤ t ∧ t < midnight e)) :=
  ⟨by decide, period_bounds_spec ⟨2026, 10, 12⟩ (by decide)⟩

end GT
